import Mathlib

/-!
# Verification of the free-tier resilience core of an Ollama/OpenRouter proxy

Shallow embedding of the routing layer of the proxy:

* the durable failure store (`internal/server/store.go`):
  `MarkFailureWithType`, `ShouldSkip`, `ClearFailure`;
* the per-model rate limiter (`RecordFailure`, `calculateBackoff`) and the
  error classifiers `isRateLimitError` / `isPermanentError`;
* the routing engine (`getFreeChat` / `getFreeStream`, and the direct-attempt
  wrappers `getFreeChatForModel` / `getFreeStreamForModel`);
* the `/api/tags` free-mode listing (`handleListModels`);
* the streaming translators (`handleStreamingChat`, `handleOpenAIStreaming`);
* the free-model pool manager (`fetchFreeModels`, the cache read path of
  `ensureFreeModelFile`).

Time is modelled as `Int` (seconds; the Go code compares `time.Duration`
nanoseconds, which only rescales every quantity uniformly).  Databases are
modelled as total maps `String → Option FailureRecord`; the possibility of a
SQL read error is modelled by an explicit error oracle where the calling code
branches on it.  Upstream calls are modelled by an oracle
`String → Except String α` giving, per model name, either a response or the
error message Go would observe.  Float64 arithmetic of the backoff
computation is modelled in exact rational arithmetic.
-/

/-! ## Failure store (`internal/server/store.go`) -/

/-- One row of the `failures` table:
`model TEXT PRIMARY KEY, failed_at INTEGER, failure_type TEXT, failure_count INTEGER`. -/
structure FailureRecord where
  failed_at : Int
  failure_type : String
  failure_count : Int
deriving DecidableEq

/-- The `FailureStore`: the table keyed by model name plus the two configured
cooldowns (`defaultCooldown`, default 5 minutes; `rateLimitCooldown`, default
1 minute), in seconds. -/
structure FailureStore where
  db : String → Option FailureRecord
  defaultCooldown : Int
  rateLimitCooldown : Int

/-- Go helper `min(a, b int) int` from store.go. -/
def goMin (a b : Int) : Int :=
  if a < b then a else b

/-- `MarkFailureWithType`: upsert — insert `(now, failureType, 1)`, or on
conflict set `failed_at`/`failure_type` to the new values and increment
`failure_count`. -/
def MarkFailureWithType (s : FailureStore) (model failureType : String) (now : Int) :
    FailureStore :=
  { s with db := fun m =>
      if m = model then
        match s.db model with
        | none => some ⟨now, failureType, 1⟩
        | some r => some ⟨now, failureType, r.failure_count + 1⟩
      else s.db m }

/-- `MarkFailure(model)` = `MarkFailureWithType(model, "general")`. -/
def MarkFailure (s : FailureStore) (model : String) (now : Int) : FailureStore :=
  MarkFailureWithType s model "general" now

/-- The cooldown `ShouldSkip` computes for a record: the rate-limit constant
for `rate_limit` rows, otherwise the default cooldown multiplied by
`min(failure_count, 5)` when `failure_count > 1`. -/
def cooldownOf (s : FailureStore) (r : FailureRecord) : Int :=
  if r.failure_type = "rate_limit" then s.rateLimitCooldown
  else
    if r.failure_count > 1 then s.defaultCooldown * goMin r.failure_count 5
    else s.defaultCooldown

/-- `ShouldSkip`: no row ⇒ `false`; otherwise suppress iff
`now - failed_at < cooldown`. -/
def ShouldSkip (s : FailureStore) (model : String) (now : Int) : Bool :=
  match s.db model with
  | none => false
  | some r => decide (now - r.failed_at < cooldownOf s r)

/-- `ClearFailure`: `UPDATE failures SET failure_count=0,
failure_type='cleared' WHERE model=?` — only existing rows are updated, and
`failed_at` is left unchanged. -/
def ClearFailure (s : FailureStore) (model : String) : FailureStore :=
  { s with db := fun m =>
      if m = model then
        (s.db model).map fun r => { r with failure_count := 0, failure_type := "cleared" }
      else s.db m }

/-- `ResetAllFailures`: `DELETE FROM failures`. -/
def ResetAllFailures (s : FailureStore) : FailureStore :=
  { s with db := fun _ => none }

theorem goMin_eq_min (a b : Int) : goMin a b = min a b := by
  unfold goMin
  rcases lt_or_ge a b with h | h
  · rw [if_pos h, min_eq_left h.le]
  · rw [if_neg (not_lt.mpr h), min_eq_right h]

/-- A store used to exhibit the `ClearFailure`/`ShouldSkip` interaction:
one `rate_limit` row for `p/a` that failed at time 0, with the default
cooldowns (300 s general, 60 s rate-limit). -/
def c1store : FailureStore :=
  { db := fun m => if m = "p/a" then some ⟨0, "rate_limit", 1⟩ else none
    defaultCooldown := 300
    rateLimitCooldown := 60 }

/-- C1: at time 70 the rate-limit cooldown (60 s) of the record has elapsed,
so `ShouldSkip` is `false` and the model can be attempted; a success then
triggers `ClearFailure`.  But after `ClearFailure` the row has
`failure_type = "cleared"`, which falls into the *default* cooldown branch
(300 s), so `ShouldSkip` at the same instant returns `true`: clearing does
not make the model routable regardless of `failed_at`, contradicting the
claim. -/
theorem ClearFailure_then_ShouldSkip_bug :
    ShouldSkip c1store "p/a" 70 = false ∧
    ShouldSkip (ClearFailure c1store "p/a") "p/a" 70 = true := by
  constructor
  · rfl
  · rfl

/-- C4: for a model with no row `ShouldSkip` returns `false`; for a model
with row `r` it returns `true` iff `now - r.failed_at < cooldown`, where the
cooldown is the rate-limit constant when `r.failure_type = "rate_limit"`,
and otherwise the default base times `min(count, 5)` when `count > 1` and
the base alone when `count ≤ 1`. -/
theorem ShouldSkip_spec (s : FailureStore) (model : String) (now : Int) :
    (s.db model = none → ShouldSkip s model now = false) ∧
    (∀ r : FailureRecord, s.db model = some r →
      (ShouldSkip s model now = true ↔
        now - r.failed_at <
          (if r.failure_type = "rate_limit" then s.rateLimitCooldown
           else if r.failure_count > 1 then s.defaultCooldown * min r.failure_count 5
           else s.defaultCooldown))) := by
  constructor
  · intro h
    simp [ShouldSkip, h]
  · intro r h
    simp only [ShouldSkip, h, cooldownOf, goMin_eq_min, decide_eq_true_eq]

/-- A store with one `general` row of count 3 for `p/a`, used to witness C4. -/
def c4store : FailureStore :=
  { db := fun m => if m = "p/a" then some ⟨100, "general", 3⟩ else none
    defaultCooldown := 300
    rateLimitCooldown := 60 }

theorem ShouldSkip_spec_witness :
    ShouldSkip c4store "p/a" 400 = true ↔
      (400 : Int) - 100 <
        (if ("general" : String) = "rate_limit" then (60 : Int)
         else if (3 : Int) > 1 then 300 * min (3 : Int) 5
         else 300) :=
  (ShouldSkip_spec c4store "p/a" 400).2 ⟨100, "general", 3⟩ (by decide)

/-! ## Error classification and the per-model rate limiter (ratelimiter part of the server package) -/

/-- Go `strings.Contains(s, substr)`. -/
def goContains (s sub : String) : Bool :=
  decide (sub.toList <:+: s.toList)

/-- Go `strings.ToLower`, modelled as per-character lowering (faithful on
ASCII, which covers every pattern the classifiers match). -/
def goToLower (s : String) : String :=
  String.mk (s.toList.map Char.toLower)

/-- `isRateLimitError`, on the error's message (`err.Error()`); a nil error
never reaches the classifiers in the modelled paths, so errors are modelled
as their message strings. -/
def isRateLimitError (errStr : String) : Bool :=
  let l := goToLower errStr
  goContains l "rate limit" || goContains l "429" ||
    goContains l "too many requests" || goContains l "quota exceeded"

/-- `isPermanentError`, on the error's message. -/
def isPermanentError (errStr : String) : Bool :=
  let l := goToLower errStr
  goContains l "404" || goContains l "not found" ||
    (goContains l "no endpoints found" ||
      (goContains l "model not available" || goContains l "model does not exist"))

/-- Per-model `RateLimiter` state, restricted to the fields the backoff
computation touches.  Times and durations are rationals (seconds); the Go
float64/`time.Duration` arithmetic is modelled exactly. -/
structure RateLimiter where
  failureCount : Int
  backoffUntil : ℚ
  baseDelay : ℚ
  maxDelay : ℚ
deriving DecidableEq

/-- `NewRateLimiter()`: `baseDelay = 100ms`, `maxDelay = 10s`. -/
def NewRateLimiter : RateLimiter :=
  { failureCount := 0, backoffUntil := 0, baseDelay := 1 / 10, maxDelay := 10 }

/-- `calculateBackoff`: `base × 2^(failureCount-1)`, capped at `maxDelay`,
plus jitter `backoff × 0.25 × (0.5 − r)` where
`r = (nanos % 100) / 100 ∈ [0,1)` is passed in as `rJitter`. -/
def calculateBackoff (r : RateLimiter) (rJitter : ℚ) : ℚ :=
  let multiplier : ℚ := 2 ^ (r.failureCount - 1)
  let backoff := r.baseDelay * multiplier
  let capped := if backoff > r.maxDelay then r.maxDelay else backoff
  let jitter := capped * (1 / 4) * (1 / 2 - rJitter)
  capped + jitter

/-- `RecordSuccess`. -/
def RecordSuccess (r : RateLimiter) : RateLimiter :=
  { r with failureCount := 0, backoffUntil := 0 }

/-- `RecordFailure(err)`: increment `failureCount`; on a rate-limit error set
`backoffUntil = now + calculateBackoff()` (which reads the already
incremented count). -/
def RecordFailure (r : RateLimiter) (err : String) (now rJitter : ℚ) : RateLimiter :=
  let r1 := { r with failureCount := r.failureCount + 1 }
  if isRateLimitError err then { r1 with backoffUntil := now + calculateBackoff r1 rJitter }
  else r1

/-- Spec-side formula: `min(base_delay × 2^(failure_count−1), max_delay)`. -/
def cappedBackoff (baseDelay maxDelay : ℚ) (failureCount : Int) : ℚ :=
  min (baseDelay * 2 ^ (failureCount - 1)) maxDelay

theorem ite_gt_eq_min (a b : ℚ) : (if a > b then b else a) = min a b := by
  rcases le_or_lt a b with h | h
  · rw [if_neg (not_lt.mpr h), min_eq_left h]
  · rw [if_pos h, min_eq_right h.le]

theorem calculateBackoff_eq (r : RateLimiter) (rJitter : ℚ) (fc : Int) :
    calculateBackoff { r with failureCount := fc } rJitter =
      cappedBackoff r.baseDelay r.maxDelay fc +
        cappedBackoff r.baseDelay r.maxDelay fc * (1 / 4) * (1 / 2 - rJitter) := by
  simp only [calculateBackoff, cappedBackoff]
  rw [ite_gt_eq_min]

/-- C9: `RecordFailure(err)` increments `failureCount`; exactly on rate-limit
errors it sets `backoffUntil` to `now` plus
`min(base_delay × 2^(failure_count−1), max_delay)` plus jitter
`backoff × 0.25 × (0.5 − r)` with `r ∈ [0,1)`, hence within ±12.5% of the
capped value; otherwise `backoffUntil` is untouched. -/
theorem RecordFailure_spec (r : RateLimiter) (err : String) (now rJitter : ℚ)
    (h0 : 0 ≤ rJitter) (h1 : rJitter < 1)
    (hb : 0 ≤ r.baseDelay) (hm : 0 ≤ r.maxDelay) :
    (RecordFailure r err now rJitter).failureCount = r.failureCount + 1 ∧
    (isRateLimitError err = true →
      (RecordFailure r err now rJitter).backoffUntil =
        now + cappedBackoff r.baseDelay r.maxDelay (r.failureCount + 1) +
          cappedBackoff r.baseDelay r.maxDelay (r.failureCount + 1) * (1 / 4) *
            (1 / 2 - rJitter) ∧
      |(RecordFailure r err now rJitter).backoffUntil -
          (now + cappedBackoff r.baseDelay r.maxDelay (r.failureCount + 1))| ≤
        cappedBackoff r.baseDelay r.maxDelay (r.failureCount + 1) / 8) ∧
    (isRateLimitError err = false →
      (RecordFailure r err now rJitter).backoffUntil = r.backoffUntil) := by
  have hBnn : 0 ≤ cappedBackoff r.baseDelay r.maxDelay (r.failureCount + 1) :=
    le_min (mul_nonneg hb (zpow_nonneg (by norm_num) _)) hm
  refine ⟨?_, ?_, ?_⟩
  · simp only [RecordFailure]
    split <;> rfl
  · intro h
    have hrw : RecordFailure r err now rJitter =
        { r with failureCount := r.failureCount + 1,
                 backoffUntil :=
                   now + calculateBackoff { r with failureCount := r.failureCount + 1 } rJitter } := by
      simp only [RecordFailure, h, if_true]
    rw [hrw]
    simp only
    rw [calculateBackoff_eq]
    constructor
    · ring
    · have heq :
          now +
              (cappedBackoff r.baseDelay r.maxDelay (r.failureCount + 1) +
                cappedBackoff r.baseDelay r.maxDelay (r.failureCount + 1) * (1 / 4) *
                  (1 / 2 - rJitter)) -
            (now + cappedBackoff r.baseDelay r.maxDelay (r.failureCount + 1)) =
          cappedBackoff r.baseDelay r.maxDelay (r.failureCount + 1) * (1 / 4) *
            (1 / 2 - rJitter) := by ring
      rw [heq, abs_mul,
        abs_of_nonneg (mul_nonneg hBnn (by norm_num : (0 : ℚ) ≤ 1 / 4))]
      have habs : |1 / 2 - rJitter| ≤ 1 / 2 :=
        abs_le.mpr ⟨by linarith, by linarith⟩
      calc cappedBackoff r.baseDelay r.maxDelay (r.failureCount + 1) * (1 / 4) *
            |1 / 2 - rJitter| ≤
          cappedBackoff r.baseDelay r.maxDelay (r.failureCount + 1) * (1 / 4) * (1 / 2) :=
            mul_le_mul_of_nonneg_left habs (mul_nonneg hBnn (by norm_num))
        _ = cappedBackoff r.baseDelay r.maxDelay (r.failureCount + 1) / 8 := by ring
  · intro h
    simp only [RecordFailure, h, if_false]
    rfl

theorem RecordFailure_spec_witness :
    (RecordFailure NewRateLimiter "429" 5 (1 / 2)).failureCount =
        NewRateLimiter.failureCount + 1 ∧
    (isRateLimitError "429" = true →
      (RecordFailure NewRateLimiter "429" 5 (1 / 2)).backoffUntil =
        5 + cappedBackoff NewRateLimiter.baseDelay NewRateLimiter.maxDelay
              (NewRateLimiter.failureCount + 1) +
          cappedBackoff NewRateLimiter.baseDelay NewRateLimiter.maxDelay
              (NewRateLimiter.failureCount + 1) * (1 / 4) * (1 / 2 - 1 / 2) ∧
      |(RecordFailure NewRateLimiter "429" 5 (1 / 2)).backoffUntil -
          (5 + cappedBackoff NewRateLimiter.baseDelay NewRateLimiter.maxDelay
                  (NewRateLimiter.failureCount + 1))| ≤
        cappedBackoff NewRateLimiter.baseDelay NewRateLimiter.maxDelay
            (NewRateLimiter.failureCount + 1) / 8) ∧
    (isRateLimitError "429" = false →
      (RecordFailure NewRateLimiter "429" 5 (1 / 2)).backoffUntil =
        NewRateLimiter.backoffUntil) :=
  RecordFailure_spec NewRateLimiter "429" 5 (1 / 2) (by norm_num) (by norm_num)
    (by norm_num [NewRateLimiter]) (by norm_num [NewRateLimiter])

/-! ## Names, filter, and the routing engine (handler part of the server package) -/

/-- Go `strings.Split` on a single-character separator, over `List Char`;
the result is always non-empty and splitting the empty string gives `[[]]`,
as in Go. -/
def goSplitChar (c : Char) : List Char → List (List Char)
  | [] => [[]]
  | x :: xs =>
    if x = c then [] :: goSplitChar c xs
    else
      match goSplitChar c xs with
      | [] => [[x]]
      | h :: t => (x :: h) :: t

/-- `strings.Split(s, sep)` for a one-character `sep`, on `String`s. -/
def goSplit (s : String) (c : Char) : List String :=
  (goSplitChar c s.toList).map String.mk

/-- `parts := strings.Split(m, "/"); parts[len(parts)-1]` — the display name
of a fully qualified model id (the split result is never empty, so the
default of `getLastD` is unreachable). -/
def displayNameOf (m : String) : String :=
  (goSplit m '/').getLastD m

/-- `isModelInFilter`: an empty filter passes everything, otherwise at least
one pattern must be a substring of the display name. -/
def isModelInFilter (filter : List String) (modelName : String) : Bool :=
  if filter.isEmpty then true
  else filter.any fun pat => goContains modelName pat

/-- The read-only data of a `Server` in free mode, plus the oracles of the
environment: `dbError m` tells whether the `ShouldSkip` SQL read for `m`
fails, `now` is the current time. -/
structure RouteEnv where
  freeModels : List String
  modelFilter : List String
  dbError : String → Bool
  now : Int

/-- The state the routing engine mutates: the failure store and the
in-memory permanent-failure set (`PermanentFailureTracker.permanentFailed`;
the timestamps stored with the set are never read, so the set alone is
modelled). -/
structure RouteState where
  store : FailureStore
  permanentFailed : List String

/-- `PermanentFailureTracker.MarkPermanentFailure`. -/
def MarkPermanentFailure (st : RouteState) (model : String) : RouteState :=
  { st with permanentFailed := model :: st.permanentFailed }

/-- `PermanentFailureTracker.IsPermanentlyFailed`. -/
def IsPermanentlyFailed (st : RouteState) (model : String) : Bool :=
  decide (model ∈ st.permanentFailed)

/-- The failure-classification step shared by `getFreeChat` and
`getFreeStream`: permanent errors go to the in-memory permanent set,
rate-limit errors get a `rate_limit` row, everything else a `general` row. -/
def sweepFailState (env : RouteEnv) (st : RouteState) (m e : String) : RouteState :=
  if isPermanentError e then MarkPermanentFailure st m
  else if isRateLimitError e then
    { st with store := MarkFailureWithType st.store m "rate_limit" env.now }
  else { st with store := MarkFailure st.store m env.now }

/-- The pool sweep of `getFreeChat` / `getFreeStream` (the two Go functions
are the same algorithm over different upstream operations, captured here by
the response type `α` and the upstream oracle `chat`).  Returns the ordered
list of models for which upstream was actually called, the final state, and
the result.  Limiter waits and the 500 ms politeness sleep have no
observable effect on this data and are not modelled. -/
def getFreeChatAux {α : Type} (env : RouteEnv) (chat : String → Except String α) :
    List String → RouteState → Option String →
      List String × RouteState × Except String (α × String)
  | [], st, lastError =>
      ([], st,
        .error
          (match lastError with
           | some e => "all models failed: " ++ e
           | none => "no free models available"))
  | m :: rest, st, lastError =>
      if IsPermanentlyFailed st m then getFreeChatAux env chat rest st lastError
      else if !isModelInFilter env.modelFilter (displayNameOf m) then
        getFreeChatAux env chat rest st lastError
      else if env.dbError m then getFreeChatAux env chat rest st lastError
      else if ShouldSkip st.store m env.now then getFreeChatAux env chat rest st lastError
      else
        match chat m with
        | .error e =>
            let res := getFreeChatAux env chat rest (sweepFailState env st m e) (some e)
            (m :: res.1, res.2)
        | .ok resp => ([m], { st with store := ClearFailure st.store m }, .ok (resp, m))

/-- `getFreeChat` / `getFreeStream`: sweep the whole pool. -/
def getFreeChat {α : Type} (env : RouteEnv) (chat : String → Except String α)
    (st : RouteState) : List String × RouteState × Except String (α × String) :=
  getFreeChatAux env chat env.freeModels st none

/-- `resolveDisplayNameToFullModel`: first pool entry whose display name
equals the request and which passes the filter; otherwise the request
itself. -/
def resolveDisplayNameToFullModel (env : RouteEnv) (displayName : String) : String :=
  match env.freeModels.find? (fun fullModel =>
      displayNameOf fullModel == displayName &&
        isModelInFilter env.modelFilter displayName) with
  | some fm => fm
  | none => displayName

/-- `getFreeChatForModel` / `getFreeStreamForModel`: the direct attempt on
the resolved name, falling back to the pool sweep. -/
def getFreeChatForModel {α : Type} (env : RouteEnv) (chat : String → Except String α)
    (st : RouteState) (requestedModel : String) :
    List String × RouteState × Except String (α × String) :=
  let fullModelName := resolveDisplayNameToFullModel env requestedModel
  if fullModelName != requestedModel || env.freeModels.contains fullModelName then
    if !env.dbError fullModelName && !ShouldSkip st.store fullModelName env.now then
      match chat fullModelName with
      | .ok resp =>
          ([fullModelName],
           { st with store := ClearFailure st.store fullModelName },
           .ok (resp, fullModelName))
      | .error _ =>
          let res := getFreeChat env chat
            { st with store := MarkFailure st.store fullModelName env.now }
          (fullModelName :: res.1, res.2)
    else getFreeChat env chat st
  else getFreeChat env chat st

/-- The free-mode branch of `handleListModels` (`/api/tags`): the display
names of the pool entries whose `ShouldSkip` read neither errors nor
suppresses and which pass the filter.  All other fields of the emitted
objects are constants or the current time, so an entry is modelled by the
display name that fills its `name`/`model` fields. -/
def handleListModelsFree (env : RouteEnv) (st : RouteState) : List String :=
  env.freeModels.filterMap fun freeModel =>
    if env.dbError freeModel then none
    else if ShouldSkip st.store freeModel env.now then none
    else
      let displayName := displayNameOf freeModel
      if !isModelInFilter env.modelFilter displayName then none
      else some displayName

/-- A two-model pool with empty filter, no DB errors, and an empty failure
store. -/
def c2env : RouteEnv :=
  { freeModels := ["p/a", "p/b"], modelFilter := [], dbError := fun _ => false, now := 0 }

def c2state : RouteState :=
  { store := { db := fun _ => none, defaultCooldown := 300, rateLimitCooldown := 60 }
    permanentFailed := [] }

/-- C2 counterexample: after `MarkPermanentFailure "p/a"` the `/api/tags`
free-mode list still contains the entry for `p/a` (display name `a`),
because `handleListModels` consults only the durable failure store, never
the in-memory permanent-failure set, and marking permanent writes nothing to
the store. -/
theorem handleListModels_permanent_cex :
    handleListModelsFree c2env (MarkPermanentFailure c2state "p/a") = ["a", "b"] ∧
    displayNameOf "p/a" ∈ handleListModelsFree c2env (MarkPermanentFailure c2state "p/a") := by
  constructor
  · rfl
  · decide

theorem mem_permanentFailed_sweepFailState (env : RouteEnv) (st : RouteState)
    (m' e m : String) (h : m ∈ st.permanentFailed) :
    m ∈ (sweepFailState env st m' e).permanentFailed := by
  unfold sweepFailState MarkPermanentFailure
  by_cases h1 : isPermanentError e = true
  · simp [h1, h]
  · by_cases h2 : isRateLimitError e = true <;> simp [h1, h2, h]

theorem not_attempted_of_permanentFailed {α : Type} (env : RouteEnv)
    (chat : String → Except String α) (m : String) :
    ∀ (models : List String) (st : RouteState) (lastError : Option String),
      m ∈ st.permanentFailed → m ∉ (getFreeChatAux env chat models st lastError).1 := by
  intro models
  induction models with
  | nil => intro st lastError _; simp [getFreeChatAux]
  | cons m' rest ih =>
    intro st lastError hm
    by_cases h1 : IsPermanentlyFailed st m' = true
    · simpa [getFreeChatAux, h1] using ih st lastError hm
    · have hne : m' ≠ m := by
        intro he
        exact h1 (by simp [IsPermanentlyFailed, he, hm])
      by_cases h2 : isModelInFilter env.modelFilter (displayNameOf m') = true
      · by_cases h3 : env.dbError m' = true
        · simpa [getFreeChatAux, h1, h2, h3] using ih st lastError hm
        · by_cases h4 : ShouldSkip st.store m' env.now = true
          · simpa [getFreeChatAux, h1, h2, h3, h4] using
              ih st lastError hm
          · rcases hc : chat m' with e | resp
            · have hrec :=
                ih (sweepFailState env st m' e) (some e)
                  (mem_permanentFailed_sweepFailState env st m' e m hm)
              simp only [getFreeChatAux, h1, h2, h3, h4, hc, Bool.not_true,
                Bool.false_eq_true, if_false, if_true, Bool.not_eq_true,
                eq_self_iff_true, List.mem_cons, not_or]
              constructor
              · exact fun he => hne he.symm
              · simpa using hrec
            · simp only [getFreeChatAux, h1, h2, h3, h4, hc, Bool.not_true,
                Bool.false_eq_true, if_false, if_true]
              simp [hne.symm]
      · have h2f : isModelInFilter env.modelFilter (displayNameOf m') = false :=
          eq_false_of_ne_true h2
      -- the filter-skip branch recurses unchanged
        simpa [getFreeChatAux, h1, h2f] using ih st lastError hm

/-- C2 amended: marking a model permanently failed removes it from all
subsequent pool-sweep attempts (no upstream call is ever made for it), but
the free-mode `/api/tags` list ignores the permanent-failure set entirely —
the listing is unchanged by any modification of that set, so the model stays
listed unless a durable failure record suppresses it. -/
theorem markPermanent_routing_vs_tags {α : Type} (env : RouteEnv)
    (chat : String → Except String α) (st : RouteState) (m : String)
    (models : List String) (lastError : Option String)
    (hm : m ∈ st.permanentFailed) :
    m ∉ (getFreeChatAux env chat models st lastError).1 ∧
    ∀ pf : List String,
      handleListModelsFree env { st with permanentFailed := pf } =
        handleListModelsFree env st := by
  constructor
  · exact not_attempted_of_permanentFailed env chat m models st lastError hm
  · intro pf
    rfl

theorem markPermanent_routing_vs_tags_witness :
    "p/a" ∉ (getFreeChatAux c2env (fun _ => Except.ok ())
        c2env.freeModels (MarkPermanentFailure c2state "p/a") none).1 ∧
    ∀ pf : List String,
      handleListModelsFree c2env
          { MarkPermanentFailure c2state "p/a" with permanentFailed := pf } =
        handleListModelsFree c2env (MarkPermanentFailure c2state "p/a") :=
  markPermanent_routing_vs_tags c2env (fun _ => Except.ok ())
    (MarkPermanentFailure c2state "p/a") "p/a" c2env.freeModels none (by decide)

/-- C10: when an upstream error carries both a permanent marker and a
rate-limit marker, the sweep's classification takes the permanent branch:
the model goes into the in-memory permanent set, the durable failure store
is left untouched (no `rate_limit` or `general` row is written), and the
sweep advances with the error remembered. -/
theorem sweep_permanent_classification {α : Type} (env : RouteEnv)
    (chat : String → Except String α) (st : RouteState) (m e : String)
    (rest : List String) (lastError : Option String)
    (hperm : isPermanentError e = true) (hrate : isRateLimitError e = true)
    (h1 : IsPermanentlyFailed st m = false)
    (h2 : isModelInFilter env.modelFilter (displayNameOf m) = true)
    (h3 : env.dbError m = false)
    (h4 : ShouldSkip st.store m env.now = false)
    (h5 : chat m = .error e) :
    getFreeChatAux env chat (m :: rest) st lastError =
      (m :: (getFreeChatAux env chat rest (MarkPermanentFailure st m) (some e)).1,
       (getFreeChatAux env chat rest (MarkPermanentFailure st m) (some e)).2) ∧
    (MarkPermanentFailure st m).store = st.store ∧
    m ∈ (MarkPermanentFailure st m).permanentFailed := by
  refine ⟨?_, rfl, by simp [MarkPermanentFailure]⟩
  have hsw : sweepFailState env st m e = MarkPermanentFailure st m := by
    simp [sweepFailState, hperm]
  simp only [getFreeChatAux, h1, h2, h3, h4, h5, hsw, Bool.not_true,
    Bool.false_eq_true, if_false, if_true]

def c10env : RouteEnv :=
  { freeModels := ["p/a"], modelFilter := [], dbError := fun _ => false, now := 0 }

def c10state : RouteState :=
  { store := { db := fun _ => none, defaultCooldown := 300, rateLimitCooldown := 60 }
    permanentFailed := [] }

def c10chat : String → Except String Unit := fun _ => .error "404: too many requests"

theorem sweep_permanent_classification_witness :
    getFreeChatAux c10env c10chat ("p/a" :: []) c10state none =
      ("p/a" :: (getFreeChatAux c10env c10chat []
          (MarkPermanentFailure c10state "p/a") (some "404: too many requests")).1,
       (getFreeChatAux c10env c10chat []
          (MarkPermanentFailure c10state "p/a") (some "404: too many requests")).2) ∧
    (MarkPermanentFailure c10state "p/a").store = c10state.store ∧
    "p/a" ∈ (MarkPermanentFailure c10state "p/a").permanentFailed :=
  sweep_permanent_classification c10env c10chat c10state "p/a"
    "404: too many requests" [] none (by decide) (by decide) (by decide)
    (by decide) (by decide) (by decide) rfl

/-- Spec-side trace of the sweep: the upstream error messages observed, in
order, following exactly the skip logic and state evolution of
`getFreeChatAux`; empty iff no candidate was attempted (an attempted
candidate either fails, contributing its error, or succeeds, ending the
sweep). -/
def sweepErrors {α : Type} (env : RouteEnv) (chat : String → Except String α) :
    List String → RouteState → List String
  | [], _ => []
  | m :: rest, st =>
      if IsPermanentlyFailed st m then sweepErrors env chat rest st
      else if !isModelInFilter env.modelFilter (displayNameOf m) then
        sweepErrors env chat rest st
      else if env.dbError m then sweepErrors env chat rest st
      else if ShouldSkip st.store m env.now then sweepErrors env chat rest st
      else
        match chat m with
        | .error e => e :: sweepErrors env chat rest (sweepFailState env st m e)
        | .ok _ => []

/-- The message the exhausted sweep produces from the observed errors. -/
def exhaustionMessage (errs : List String) : String :=
  match errs.getLast? with
  | none => "no free models available"
  | some e => "all models failed: " ++ e

theorem exhaustionMessage_append_cons (l : List String) (e : String) (t : List String) :
    exhaustionMessage (l ++ e :: t) = exhaustionMessage (e :: t) := by
  unfold exhaustionMessage
  rw [List.getLast?_append_cons]

theorem getFreeChatAux_error_msg {α : Type} (env : RouteEnv)
    (chat : String → Except String α) :
    ∀ (models : List String) (st : RouteState) (acc : Option String) (msg : String),
      (getFreeChatAux env chat models st acc).2.2 = .error msg →
      msg = exhaustionMessage (acc.toList ++ sweepErrors env chat models st) := by
  intro models
  induction models with
  | nil =>
    intro st acc msg h
    have hs : sweepErrors env chat ([] : List String) st = [] := rfl
    rw [hs, List.append_nil]
    cases acc with
    | none =>
      simp only [getFreeChatAux, Except.error.injEq] at h
      exact h.symm
    | some e =>
      simp only [getFreeChatAux, Except.error.injEq] at h
      exact h.symm
  | cons m rest ih =>
    intro st acc msg h
    by_cases h1 : IsPermanentlyFailed st m = true
    · simp only [getFreeChatAux, sweepErrors, h1, if_true] at h ⊢
      exact ih st acc msg h
    · have h1f := eq_false_of_ne_true h1
      by_cases h2 : isModelInFilter env.modelFilter (displayNameOf m) = true
      · by_cases h3 : env.dbError m = true
        · simp only [getFreeChatAux, sweepErrors, h1f, h2, h3, Bool.not_true,
            Bool.false_eq_true, if_false, if_true] at h ⊢
          exact ih st acc msg h
        · have h3f := eq_false_of_ne_true h3
          by_cases h4 : ShouldSkip st.store m env.now = true
          · simp only [getFreeChatAux, sweepErrors, h1f, h2, h3f, h4, Bool.not_true,
              Bool.false_eq_true, if_false, if_true] at h ⊢
            exact ih st acc msg h
          · have h4f := eq_false_of_ne_true h4
            rcases hc : chat m with e | resp
            · simp only [getFreeChatAux, sweepErrors, h1f, h2, h3f, h4f, hc,
                Bool.not_true, Bool.false_eq_true, if_false, if_true] at h ⊢
              have := ih (sweepFailState env st m e) (some e) msg h
              rw [this, exhaustionMessage_append_cons]
              simp [exhaustionMessage]
            · rw [getFreeChatAux] at h
              simp only [h1f, h2, h3f, h4f, hc, Bool.not_true,
                Bool.false_eq_true, if_false, if_true] at h
              exact Except.noConfusion h
      · have h2f := eq_false_of_ne_true h2
        simp only [getFreeChatAux, sweepErrors, h1f, h2f, Bool.not_false,
          Bool.false_eq_true, if_false, if_true] at h ⊢
        exact ih st acc msg h

/-- C6: when the pool sweep fails to produce a response, the error is
"all models failed: " wrapping the last upstream error observed during the
sweep, and "no free models available" exactly when no candidate was
attempted (every candidate was skipped). -/
theorem getFreeChat_exhaustion {α : Type} (env : RouteEnv)
    (chat : String → Except String α) (st : RouteState) (msg : String)
    (h : (getFreeChat env chat st).2.2 = .error msg) :
    (sweepErrors env chat env.freeModels st = [] ∧ msg = "no free models available") ∨
    (∃ e, (sweepErrors env chat env.freeModels st).getLast? = some e ∧
      msg = "all models failed: " ++ e) := by
  have hmsg := getFreeChatAux_error_msg env chat env.freeModels st none msg h
  simp only [Option.toList_none, List.nil_append] at hmsg
  rcases hlast : (sweepErrors env chat env.freeModels st).getLast? with _ | e
  · left
    refine ⟨List.getLast?_eq_none_iff.mp hlast, ?_⟩
    rw [hmsg]
    unfold exhaustionMessage
    rw [hlast]
  · right
    refine ⟨e, rfl, ?_⟩
    rw [hmsg]
    unfold exhaustionMessage
    rw [hlast]

def c6env : RouteEnv :=
  { freeModels := ["p/a", "p/b"], modelFilter := [], dbError := fun _ => false, now := 0 }

def c6state : RouteState :=
  { store := { db := fun _ => none, defaultCooldown := 300, rateLimitCooldown := 60 }
    permanentFailed := [] }

def c6chat : String → Except String Unit := fun m =>
  .error (if m = "p/a" then "errA" else "errB")

theorem getFreeChat_exhaustion_witness :
    (sweepErrors c6env c6chat c6env.freeModels c6state = [] ∧
      "all models failed: errB" = "no free models available") ∨
    (∃ e, (sweepErrors c6env c6chat c6env.freeModels c6state).getLast? = some e ∧
      "all models failed: errB" = "all models failed: " ++ e) :=
  getFreeChat_exhaustion c6env c6chat c6state "all models failed: errB" rfl

/-- C5: the direct attempt of `getFreeChatForModel` / `getFreeStreamForModel`
calls upstream with the resolved name, before any pool sweep, exactly when
(the resolved name differs from the input or the input is a pool member) and
the `ShouldSkip` read returns `false` without error; on upstream success it
clears the model's failure record and returns the response with the resolved
name, attempting no pool entry; otherwise the pool sweep runs (from the
unchanged state when the direct attempt was not made, from the state with the
direct failure marked when it was made and failed). -/
theorem getFreeChatForModel_direct {α : Type} (env : RouteEnv)
    (chat : String → Except String α) (st : RouteState) (requestedModel : String)
    (full : String) (hfull : full = resolveDisplayNameToFullModel env requestedModel) :
    ((full ≠ requestedModel ∨ full ∈ env.freeModels) ∧
        env.dbError full = false ∧ ShouldSkip st.store full env.now = false →
      getFreeChatForModel env chat st requestedModel =
        match chat full with
        | .ok resp =>
            ([full], { st with store := ClearFailure st.store full }, .ok (resp, full))
        | .error _ =>
            (full ::
              (getFreeChat env chat
                { st with store := MarkFailure st.store full env.now }).1,
             (getFreeChat env chat
                { st with store := MarkFailure st.store full env.now }).2)) ∧
    ((full ≠ requestedModel ∨ full ∈ env.freeModels) ∧
        env.dbError full = false ∧ ShouldSkip st.store full env.now = false →
      ∀ resp, chat full = .ok resp →
        getFreeChatForModel env chat st requestedModel =
          ([full], { st with store := ClearFailure st.store full }, .ok (resp, full))) ∧
    (¬ ((full ≠ requestedModel ∨ full ∈ env.freeModels) ∧
          env.dbError full = false ∧ ShouldSkip st.store full env.now = false) →
      getFreeChatForModel env chat st requestedModel = getFreeChat env chat st) := by
  subst hfull
  refine ⟨?_, ?_, ?_⟩
  · rintro ⟨h1, h2, h3⟩
    have hb1 : (resolveDisplayNameToFullModel env requestedModel != requestedModel ||
        env.freeModels.contains (resolveDisplayNameToFullModel env requestedModel)) =
          true := by
      rcases h1 with h | h <;> simp [h]
    have hb2 : (!env.dbError (resolveDisplayNameToFullModel env requestedModel) &&
        !ShouldSkip st.store (resolveDisplayNameToFullModel env requestedModel)
          env.now) = true := by
      rw [h2, h3]
      rfl
    simp only [getFreeChatForModel, hb1, hb2, if_true]
  · rintro ⟨h1, h2, h3⟩ resp hr
    have hb1 : (resolveDisplayNameToFullModel env requestedModel != requestedModel ||
        env.freeModels.contains (resolveDisplayNameToFullModel env requestedModel)) =
          true := by
      rcases h1 with h | h <;> simp [h]
    have hb2 : (!env.dbError (resolveDisplayNameToFullModel env requestedModel) &&
        !ShouldSkip st.store (resolveDisplayNameToFullModel env requestedModel)
          env.now) = true := by
      rw [h2, h3]
      rfl
    simp only [getFreeChatForModel, hb1, hb2, if_true, hr]
  · intro hc
    by_cases hb1 : (resolveDisplayNameToFullModel env requestedModel != requestedModel ||
        env.freeModels.contains (resolveDisplayNameToFullModel env requestedModel)) =
          true
    · have h1 : resolveDisplayNameToFullModel env requestedModel ≠ requestedModel ∨
          resolveDisplayNameToFullModel env requestedModel ∈ env.freeModels := by
        simpa using hb1
      have hb2 : (!env.dbError (resolveDisplayNameToFullModel env requestedModel) &&
          !ShouldSkip st.store (resolveDisplayNameToFullModel env requestedModel)
            env.now) = false := by
        cases hdb : env.dbError (resolveDisplayNameToFullModel env requestedModel)
        · cases hsk : ShouldSkip st.store
              (resolveDisplayNameToFullModel env requestedModel) env.now
          · exact absurd ⟨h1, hdb, hsk⟩ hc
          · simp [hsk]
        · simp [hdb]
      simp only [getFreeChatForModel, hb1, hb2, if_true, Bool.false_eq_true, if_false]
    · have hb1f := eq_false_of_ne_true hb1
      simp only [getFreeChatForModel, hb1f, Bool.false_eq_true, if_false]

def c5env : RouteEnv :=
  { freeModels := ["p/x"], modelFilter := [], dbError := fun _ => false, now := 0 }

def c5state : RouteState :=
  { store := { db := fun _ => none, defaultCooldown := 300, rateLimitCooldown := 60 }
    permanentFailed := [] }

theorem getFreeChatForModel_direct_witness :
    getFreeChatForModel c5env (fun _ => Except.ok ()) c5state "x" =
      (["p/x"], { c5state with store := ClearFailure c5state.store "p/x" },
       Except.ok ((), "p/x")) :=
  (getFreeChatForModel_direct c5env (fun _ => Except.ok ()) c5state "x" "p/x"
      (by decide)).2.1 ⟨Or.inl (by decide), rfl, rfl⟩ () rfl

/-! ## Streaming translators (`handleStreamingChat`, `handleOpenAIStreaming`) -/

/-- One upstream stream chunk, reduced to the fields the translators read:
`Choices[0].Delta.Content` and `Choices[0].FinishReason` (empty string for
absent). -/
structure RecvChunk where
  content : String
  finishReason : String
deriving DecidableEq

/-- A wire frame of the Ollama (NDJSON) dialect.  `chunk` is an intermediate
`done:false` frame with the given model and delta content; `errFrame` is the
`{"error": …}` line; `final` is the `done:true` frame with its
`finish_reason`.  Timestamps are not modelled. -/
inductive OllamaFrame where
  | chunk (model content : String)
  | errFrame (msg : String)
  | final (model finishReason : String)
deriving DecidableEq

/-- A wire frame of the chat-completions (SSE) dialect: a `data: {…}` chunk
(with its delta content and optional finish reason) or the terminal
`data: [DONE]`. -/
inductive OpenAIFrame where
  | data (model content : String) (finishReason : Option String)
  | done
deriving DecidableEq

/-- The `recv` loop of `handleStreamingChat` (Ollama dialect), as the list of
frames written.  The stream is the list of successive `stream.Recv()`
results; the end of the list is `io.EOF`.  On EOF the final `done:true`
frame carries the last non-empty finish reason, defaulting to `"stop"`; on a
non-EOF error the handler writes one error frame and returns. -/
def handleStreamingChat (model : String) :
    List (Except String RecvChunk) → String → List OllamaFrame
  | [], lastFinishReason =>
      [.final model (if lastFinishReason = "" then "stop" else lastFinishReason)]
  | .error e :: _, _ => [.errFrame ("Stream error: " ++ e)]
  | .ok ch :: rest, lastFinishReason =>
      .chunk model ch.content ::
        handleStreamingChat model rest
          (if ch.finishReason ≠ "" then ch.finishReason else lastFinishReason)

/-- The `recv` loop of `handleOpenAIStreaming` (chat-completions dialect):
on EOF it writes `data: [DONE]` and stops, on a non-EOF error it breaks out
of the loop without writing anything. -/
def handleOpenAIStreaming (model : String) :
    List (Except String RecvChunk) → List OpenAIFrame
  | [] => [.done]
  | .error _ :: _ => []
  | .ok ch :: rest =>
      .data model ch.content
          (if ch.finishReason = "" then none else some ch.finishReason) ::
        handleOpenAIStreaming model rest

/-- Whether an Ollama-dialect frame is the terminal `done:true` frame. -/
def OllamaFrame.isFinal : OllamaFrame → Bool
  | .final _ _ => true
  | _ => false

/-- C3 counterexample: one chunk followed by a `Recv` error.  The Ollama
handler emits the chunk and then an *error* frame — no `done:true` terminal
frame anywhere in the output; the chat-completions handler emits the chunk
and nothing else — no `data: [DONE]`.  The claimed terminal frames appear
only on EOF. -/
theorem streaming_error_no_terminal_cex :
    handleStreamingChat "m" [.ok ⟨"hi", ""⟩, .error "boom"] "" =
      [.chunk "m" "hi", .errFrame "Stream error: boom"] ∧
    (handleStreamingChat "m" [.ok ⟨"hi", ""⟩, .error "boom"] "").any
        OllamaFrame.isFinal = false ∧
    handleOpenAIStreaming "m" [.ok ⟨"hi", ""⟩, .error "boom"] =
      [.data "m" "hi" none] ∧
    OpenAIFrame.done ∉ handleOpenAIStreaming "m" [.ok ⟨"hi", ""⟩, .error "boom"] := by
  refine ⟨rfl, rfl, rfl, by decide⟩

/-- C3 amended: once chunks have been written, a non-EOF `Recv` error makes
the Ollama-dialect handler write the prefix of chunk frames followed by a
single `{"error": "Stream error: …"}` frame (not a `done:true` frame), and
makes the chat-completions handler write the prefix of `data:` frames and
terminate without any terminal frame (no `data: [DONE]`); the claimed
terminal frames are written exactly on EOF. -/
theorem streaming_error_behavior (model e : String) (chunks : List RecvChunk)
    (lastFinishReason : String) (rest : List (Except String RecvChunk)) :
    handleStreamingChat model (chunks.map Except.ok ++ Except.error e :: rest)
        lastFinishReason =
      chunks.map (fun ch => OllamaFrame.chunk model ch.content) ++
        [OllamaFrame.errFrame ("Stream error: " ++ e)] ∧
    handleOpenAIStreaming model (chunks.map Except.ok ++ Except.error e :: rest) =
      chunks.map (fun ch =>
        OpenAIFrame.data model ch.content
          (if ch.finishReason = "" then none else some ch.finishReason)) := by
  induction chunks generalizing lastFinishReason with
  | nil => exact ⟨rfl, rfl⟩
  | cons ch rest2 ih =>
    refine ⟨?_, ?_⟩
    · simp only [List.map_cons, List.cons_append, handleStreamingChat, List.append_eq]
      rw [(ih _).1]
    · simp only [List.map_cons, List.cons_append, handleOpenAIStreaming, List.append_eq]
      rw [(ih lastFinishReason).2]

/-! ## Free-model pool manager (`fetchFreeModels`, `supportsToolUse`) -/

/-- One entry of the upstream `/models` catalog (`orModels.Data`), reduced
to the fields `fetchFreeModels` reads. -/
structure ORModelEntry where
  id : String
  context_length : Int
  supported_parameters : List String
  top_provider_context_length : Int
  pricing_prompt : String
  pricing_completion : String
deriving DecidableEq

/-- `supportsToolUse`: some supported parameter is `tools` or
`tool_choice`. -/
def supportsToolUse (supportedParams : List String) : Bool :=
  supportedParams.any fun param => param == "tools" || param == "tool_choice"

/-- `ctx := m.TopProvider.ContextLength; if ctx == 0 { ctx = m.ContextLength }`. -/
def effectiveContextLength (m : ORModelEntry) : Int :=
  if m.top_provider_context_length = 0 then m.context_length
  else m.top_provider_context_length

/-- The filter of `fetchFreeModels`: both pricing components are the literal
string `"0"`, and when the tool-use-only flag is set, `supportsToolUse` must
hold. -/
def freeKeep (toolUseOnly : Bool) (m : ORModelEntry) : Bool :=
  m.pricing_prompt == "0" && m.pricing_completion == "0" &&
    (!toolUseOnly || supportsToolUse m.supported_parameters)

/-- `fetchFreeModels` after decoding: keep the free (and, if flagged,
tool-capable) entries, sort by effective context length descending, return
the ids.  Go's `sort.Slice` is an unspecified permutation sorted by
`ctx > ctx`; it is modelled by insertion sort for the relation
`effectiveContextLength b ≤ effectiveContextLength a`, one such
permutation. -/
def fetchFreeModels (toolUseOnly : Bool) (data : List ORModelEntry) : List String :=
  ((data.filter (freeKeep toolUseOnly)).insertionSort
      (fun a b => effectiveContextLength b ≤ effectiveContextLength a)).map
    ORModelEntry.id

instance : IsTotal ORModelEntry
    (fun a b => effectiveContextLength b ≤ effectiveContextLength a) :=
  ⟨fun a b => le_total _ _⟩

instance : IsTrans ORModelEntry
    (fun a b => effectiveContextLength b ≤ effectiveContextLength a) :=
  ⟨fun _ _ _ h1 h2 => le_trans h2 h1⟩

/-- C7: `fetchFreeModels` returns exactly the ids of the entries whose
`pricing.prompt` and `pricing.completion` are both `"0"` (restricted to
tool-capable entries when the flag is set), as the id image of a permutation
of the filtered entries that is sorted by non-increasing effective context
length. -/
theorem fetchFreeModels_spec (toolUseOnly : Bool) (data : List ORModelEntry) :
    (fetchFreeModels toolUseOnly data).Perm
      ((data.filter (freeKeep toolUseOnly)).map ORModelEntry.id) ∧
    ∃ l : List ORModelEntry,
      l.Perm (data.filter (freeKeep toolUseOnly)) ∧
      l.Pairwise (fun a b => effectiveContextLength b ≤ effectiveContextLength a) ∧
      fetchFreeModels toolUseOnly data = l.map ORModelEntry.id := by
  constructor
  · exact (List.perm_insertionSort _ _).map ORModelEntry.id
  · exact ⟨_, List.perm_insertionSort _ _, List.sorted_insertionSort _ _, rfl⟩

/-! ## Pool cache file (`ensureFreeModelFile` read path) -/

/-- Go `unicode.IsSpace` (the White_Space code points). -/
def isGoSpace (c : Char) : Bool :=
  c = ' ' || c = '\t' || c = '\n' || c = '\r' ||
    c.val = 0x0B || c.val = 0x0C || c.val = 0x85 || c.val = 0xA0 ||
    c.val = 0x1680 || (0x2000 ≤ c.val && c.val ≤ 0x200A) ||
    c.val = 0x2028 || c.val = 0x2029 || c.val = 0x202F || c.val = 0x205F ||
    c.val = 0x3000

/-- Go `strings.TrimSpace`, over `List Char`. -/
def trimSpace (l : List Char) : List Char :=
  ((l.dropWhile isGoSpace).reverse.dropWhile isGoSpace).reverse

/-- Go `strings.Join(xs, sep)` for a one-character separator. -/
def joinWithChar (c : Char) : List (List Char) → List Char
  | [] => []
  | [x] => x
  | x :: xs => x ++ c :: joinWithChar c xs

/-- The cache-read path of `ensureFreeModelFile`: split the file contents on
newlines, trim each line, drop empties, keep the order. -/
def readCachedModels (data : List Char) : List (List Char) :=
  ((goSplitChar '\n' data).map trimSpace).filter fun l => !l.isEmpty

theorem goSplitChar_no_sep (c : Char) :
    ∀ l : List Char, c ∉ l → goSplitChar c l = [l] := by
  intro l
  induction l with
  | nil => intro _; rfl
  | cons x xs ih =>
    intro h
    have hx : ¬x = c := fun he => h (he ▸ List.mem_cons_self x xs)
    have hxs := ih fun hm => h (List.mem_cons_of_mem x hm)
    simp only [goSplitChar, hx, if_false, hxs]

theorem goSplitChar_append_sep (c : Char) :
    ∀ l t : List Char, c ∉ l →
      goSplitChar c (l ++ c :: t) = l :: goSplitChar c t := by
  intro l
  induction l with
  | nil =>
    intro t _
    simp [goSplitChar]
  | cons x xs ih =>
    intro t h
    have hx : ¬x = c := fun he => h (he ▸ List.mem_cons_self x xs)
    have hxs := ih t fun hm => h (List.mem_cons_of_mem x hm)
    simp only [List.cons_append, goSplitChar, hx, if_false, List.append_eq, hxs]

/-- C8 counterexample: the single identifier `" a"` is non-empty after
trimming and contains no newline, yet the write/read round trip returns
`"a"`: the read path trims each line, so identifiers carrying leading or
trailing whitespace do not survive unchanged. -/
theorem cacheRoundTrip_cex :
    trimSpace [' ', 'a'] ≠ [] ∧ '\n' ∉ [' ', 'a'] ∧
    readCachedModels (joinWithChar '\n' [[' ', 'a']]) = [['a']] ∧
    readCachedModels (joinWithChar '\n' [[' ', 'a']]) ≠ [[' ', 'a']] := by
  decide

/-- C8 amended: for identifiers that are non-empty, contain no newline, and
are *equal to their whitespace-trimmed form*, writing the pool one id per
line and reading it back through the cache-read path yields the identical
list in the identical order. -/
theorem cacheRoundTrip (ids : List (List Char))
    (h : ∀ id ∈ ids, id ≠ [] ∧ trimSpace id = id ∧ '\n' ∉ id) :
    readCachedModels (joinWithChar '\n' ids) = ids := by
  induction ids with
  | nil => rfl
  | cons x rest ih =>
    obtain ⟨hne, htr, hnn⟩ := h x (List.mem_cons_self x rest)
    have hxe : (!x.isEmpty) = true := by
      cases x with
      | nil => exact absurd rfl hne
      | cons a as => rfl
    cases rest with
    | nil =>
      show ((goSplitChar '\n' x).map trimSpace).filter (fun l => !l.isEmpty) = [x]
      rw [goSplitChar_no_sep '\n' x hnn]
      simp only [List.map_cons, List.map_nil, htr, List.filter, hxe]
    | cons y ys =>
      have hrest := ih fun m hm => h m (List.mem_cons_of_mem x hm)
      show ((goSplitChar '\n' (x ++ '\n' :: joinWithChar '\n' (y :: ys))).map
          trimSpace).filter (fun l => !l.isEmpty) = x :: y :: ys
      rw [goSplitChar_append_sep '\n' x (joinWithChar '\n' (y :: ys)) hnn]
      simp only [List.map_cons, htr, List.filter, hxe]
      exact congrArg (x :: ·) hrest

theorem cacheRoundTrip_witness :
    readCachedModels (joinWithChar '\n' [['a'], ['b', 'c']]) = [['a'], ['b', 'c']] :=
  cacheRoundTrip [['a'], ['b', 'c']] (by decide)
